import Mathlib

/- Shallow embedding of the counting core of the Jamsniper repository.
   The arithmetic of count_cars in bot.py lines 41 to 69 and of draw_interface
   in traffic.py lines 78 to 116 is identical; both are modelled here over the
   rationals, with a Python ZeroDivisionError modelled as the value none. -/

/-- A detected bounding box, as unpacked from the detector output in bot.py
line 52 and traffic.py line 94. -/
structure Detection where
  x1 : ℚ
  y1 : ℚ
  x2 : ℚ
  y2 : ℚ
  deriving DecidableEq

/-- Horizontal center of a box, bot.py line 53. -/
def centerX (d : Detection) : ℚ := (d.x1 + d.x2) / 2

/-- Vertical center of a box, bot.py line 54. -/
def centerY (d : Detection) : ℚ := (d.y1 + d.y2) / 2

/-- Box width, bot.py line 55. -/
def boxW (d : Detection) : ℚ := d.x2 - d.x1

/-- Box height, bot.py line 56. -/
def boxH (d : Detection) : ℚ := d.y2 - d.y1

/-- The divider line data computed in bot.py lines 42 to 46 and traffic.py
lines 82 to 90. -/
structure DividerLine where
  topX : ℚ
  bottomX : ℚ
  slope : ℚ
  deriving DecidableEq

/-- Straight translation of bot.py lines 42 to 46, total over the rationals. -/
def mkDivider (width height shift tilt : ℚ) : DividerLine :=
  let baseTop := width * 0.60
  let baseBottom := width * 0.40
  let topX := baseTop + width * shift + width * tilt
  let bottomX := baseBottom + width * shift - width * tilt
  { topX := topX, bottomX := bottomX, slope := (bottomX - topX) / height }

/-- The divider computation of bot.py lines 42 to 46: when height = 0 the
slope division raises ZeroDivisionError in Python, modelled as none; no other
validation of width or height exists in the source. -/
def computeDivider (width height shift tilt : ℚ) : Option DividerLine :=
  if height = 0 then none else some (mkDivider width height shift tilt)

/-- The x position of the divider at a given y, bot.py line 63. -/
def divX (dl : DividerLine) (y : ℚ) : ℚ := dl.topX + dl.slope * y

/-- The divider is drawn as the segment from (topX, 0) to (bottomX, height),
traffic.py line 86. -/
def dividerSegment (dl : DividerLine) (height : ℚ) : (ℚ × ℚ) × (ℚ × ℚ) :=
  ((dl.topX, 0), (dl.bottomX, height))

/-- Outcome of the loop body for one detection. -/
inductive SideAssignment where
  | Excluded
  | SideA
  | SideB
  deriving DecidableEq

/-- One iteration of the loop in bot.py lines 51 to 67. The ignore zone test
of line 59 runs before the aspect division of line 60, so a zero height box
inside the zone is skipped without dividing; outside the zone a zero height
box raises ZeroDivisionError, modelled as none. SideA is the to_johor branch
and SideB the to_woodlands branch. -/
def classifyDet (d : Detection) (width height : ℚ) (dl : DividerLine) :
    Option SideAssignment :=
  if centerY d > height * 0.60 ∧ centerX d < width * 0.30 then
    some SideAssignment.Excluded
  else if boxH d = 0 then
    none
  else if boxW d / boxH d > 3.0 then
    some SideAssignment.Excluded
  else if centerX d < divX dl (centerY d) then
    some SideAssignment.SideA
  else
    some SideAssignment.SideB

/-- The whole loop of bot.py lines 51 to 67, keeping the per detection
assignment; none when any iteration raises. -/
def aggregate :
    List Detection → ℚ → ℚ → DividerLine →
      Option (List (Detection × SideAssignment))
  | [], _, _, _ => some []
  | d :: ds, w, h, dl =>
      (classifyDet d w h dl).bind fun s =>
        (aggregate ds w h dl).map fun rest => (d, s) :: rest

/-- Number of detections assigned SideA (the to_johor counter). -/
def sideACount (l : List (Detection × SideAssignment)) : ℕ :=
  l.countP fun p => decide (p.2 = SideAssignment.SideA)

/-- Number of detections assigned SideB (the to_woodlands counter). -/
def sideBCount (l : List (Detection × SideAssignment)) : ℕ :=
  l.countP fun p => decide (p.2 = SideAssignment.SideB)

/-- Number of detections skipped by one of the two continue filters. -/
def excludedCount (l : List (Detection × SideAssignment)) : ℕ :=
  l.countP fun p => decide (p.2 = SideAssignment.Excluded)

/-- The pure content of count_cars in bot.py lines 41 to 69: compute the
divider, run the loop, return the two tallies. Any ZeroDivisionError is caught
by the surrounding try block and surfaces as the pair None, None, modelled
as none. -/
def count_cars (dets : List Detection) (width height shift tilt : ℚ) :
    Option (ℕ × ℕ) :=
  (computeDivider width height shift tilt).bind fun dl =>
    (aggregate dets width height dl).map fun l => (sideACount l, sideBCount l)

/-- Traffic status shown on a dashboard card. -/
inductive Status where
  | CLEAR
  | MODERATE
  | JAM
  deriving DecidableEq

/-- Status banding of traffic.py lines 163 to 165 (repeated at 171 to 173). -/
def statusBand (count : ℕ) : Status :=
  if count < 25 then Status.CLEAR
  else if count < 45 then Status.MODERATE
  else Status.JAM

/-- The detection of the worked scenario, centered at (850, 300). -/
def d5 : Detection := { x1 := 800, y1 := 250, x2 := 900, y2 := 350 }

/-- A box with zero recorded height, outside the ignore zone of a 1000 by 600
frame: its processing divides by zero. -/
def dDegenerate : Detection := { x1 := 0, y1 := 10, x2 := 5, y2 := 10 }

/- Helper lemmas shared by several results below. -/

/-- Helper: a box of nonzero height never makes the loop body raise. -/
lemma classifyDet_isSome (d : Detection) (w h : ℚ) (dl : DividerLine)
    (hbh : boxH d ≠ 0) : ∃ s, classifyDet d w h dl = some s := by
  unfold classifyDet
  split_ifs <;> simp_all

/-- Helper: the loop body yields Excluded exactly when the ignore zone rule
fires, or the box has nonzero height and the aspect rule fires. -/
lemma classifyDet_excluded_iff (d : Detection) (w h : ℚ) (dl : DividerLine) :
    classifyDet d w h dl = some SideAssignment.Excluded ↔
      ((centerY d > h * 0.60 ∧ centerX d < w * 0.30) ∨
        (boxH d ≠ 0 ∧ boxW d / boxH d > 3.0)) := by
  unfold classifyDet
  split_ifs with h1 h2 h3 <;> simp_all

/-- Helper: for a box of nonzero height that is not excluded, the loop body
compares centerX with the divider x at centerY. -/
lemma classifyDet_sides (d : Detection) (w h : ℚ) (dl : DividerLine)
    (hbh : boxH d ≠ 0)
    (hnn : classifyDet d w h dl ≠ some SideAssignment.Excluded) :
    (classifyDet d w h dl = some SideAssignment.SideA ↔
      centerX d < divX dl (centerY d)) ∧
    (classifyDet d w h dl = some SideAssignment.SideB ↔
      ¬ centerX d < divX dl (centerY d)) := by
  unfold classifyDet at hnn ⊢
  split_ifs at hnn ⊢ with h1 h2 h3 <;> simp_all

/-- Claim C2: for every width > 0, height > 0 and all shift and tilt, the
divider computation succeeds and satisfies topX = 0.6*width + width*(shift +
tilt), bottomX = 0.4*width + width*(shift - tilt) and slope = (bottomX -
topX)/height, and the divider drawn is the segment from (topX, 0) to
(bottomX, height). -/
theorem computeDivider_spec (w h s t : ℚ) (hw : 0 < w) (hh : 0 < h) :
    ∃ dl, computeDivider w h s t = some dl ∧
      dl.topX = 0.6 * w + w * (s + t) ∧
      dl.bottomX = 0.4 * w + w * (s - t) ∧
      dl.slope = (dl.bottomX - dl.topX) / h ∧
      dividerSegment dl h = ((dl.topX, 0), (dl.bottomX, h)) := by
  refine ⟨mkDivider w h s t, ?_, ?_, ?_, rfl, rfl⟩
  · unfold computeDivider
    rw [if_neg hh.ne']
  · show w * 0.60 + w * s + w * t = 0.6 * w + w * (s + t)
    ring
  · show w * 0.40 + w * s - w * t = 0.4 * w + w * (s - t)
    ring

/-- Claim C2 witness at a concrete frame and calibration. -/
theorem computeDivider_spec_witness :
    ∃ dl, computeDivider 1000 600 0.05 0.25 = some dl ∧
      dl.topX = 0.6 * 1000 + 1000 * (0.05 + 0.25) ∧
      dl.bottomX = 0.4 * 1000 + 1000 * (0.05 - 0.25) ∧
      dl.slope = (dl.bottomX - dl.topX) / 600 ∧
      dividerSegment dl 600 = ((dl.topX, 0), (dl.bottomX, 600)) :=
  computeDivider_spec 1000 600 0.05 0.25 (by norm_num) (by norm_num)

/-- Claim C5: in the worked scenario (frame 1000 by 600, shift 0.05, tilt
0.25) the divider has topX = 900, bottomX = 200 and slope = (200 - 900)/600;
the detection centered at (850, 300) sees divider x 550 there and, since 850
is not less than 550, is assigned SideB. -/
theorem scenario_concrete :
    computeDivider 1000 600 0.05 0.25 = some (mkDivider 1000 600 0.05 0.25) ∧
    (mkDivider 1000 600 0.05 0.25).topX = 900 ∧
    (mkDivider 1000 600 0.05 0.25).bottomX = 200 ∧
    (mkDivider 1000 600 0.05 0.25).slope = (200 - 900) / 600 ∧
    centerX d5 = 850 ∧ centerY d5 = 300 ∧
    divX (mkDivider 1000 600 0.05 0.25) 300 = 550 ∧
    ¬ centerX d5 < divX (mkDivider 1000 600 0.05 0.25) (centerY d5) ∧
    classifyDet d5 1000 600 (mkDivider 1000 600 0.05 0.25) =
      some SideAssignment.SideB := by
  norm_num [computeDivider, mkDivider, divX, centerX, centerY, d5,
    classifyDet, boxW, boxH]

/-- Claim C6: status banding with thresholds 25 and 45: CLEAR iff count < 25,
MODERATE iff 25 <= count < 45, JAM iff count >= 45; the sample counts 24, 25,
44, 45 band as CLEAR, MODERATE, MODERATE, JAM. -/
theorem statusBand_spec :
    (∀ c : ℕ,
      (statusBand c = Status.CLEAR ↔ c < 25) ∧
      (statusBand c = Status.MODERATE ↔ 25 ≤ c ∧ c < 45) ∧
      (statusBand c = Status.JAM ↔ 45 ≤ c)) ∧
    statusBand 24 = Status.CLEAR ∧ statusBand 25 = Status.MODERATE ∧
    statusBand 44 = Status.MODERATE ∧ statusBand 45 = Status.JAM := by
  refine ⟨fun c => ?_, by decide, by decide, by decide, by decide⟩
  unfold statusBand
  split_ifs with h1 h2 <;> simp_all <;> omega

/-- Claim C9: the counting core is a pure function of its explicit inputs;
re-invocation on identical inputs returns an identical result. -/
theorem count_cars_deterministic (dets : List Detection) (w h s t : ℚ)
    (dl : DividerLine) :
    aggregate dets w h dl = aggregate dets w h dl ∧
    count_cars dets w h s t = count_cars dets w h s t :=
  ⟨rfl, rfl⟩

/-- Claim C1: on a frame with positive dimensions and detections satisfying
the box invariant y1 < y2, aggregation succeeds, keeps every input detection
exactly once with exactly one assignment among Excluded, SideA and SideB, and
the three tallies sum to the length of the input list. -/
theorem aggregate_partition (dets : List Detection) (w h : ℚ)
    (dl : DividerLine) (hw : 0 < w) (hh : 0 < h)
    (hdet : ∀ d ∈ dets, d.y1 < d.y2) :
    ∃ l, aggregate dets w h dl = some l ∧
      l.map Prod.fst = dets ∧
      sideACount l + sideBCount l + excludedCount l = dets.length := by
  induction dets with
  | nil => exact ⟨[], rfl, rfl, rfl⟩
  | cons d ds ih =>
    obtain ⟨l, hl, hmap, hsum⟩ :=
      ih fun x hx => hdet x (List.mem_cons_of_mem _ hx)
    have hbh : boxH d ≠ 0 := by
      have hy := hdet d (List.mem_cons_self _ _)
      unfold boxH
      exact sub_ne_zero.mpr (ne_of_gt hy)
    obtain ⟨s, hs⟩ := classifyDet_isSome d w h dl hbh
    refine ⟨(d, s) :: l, ?_, ?_, ?_⟩
    · simp [aggregate, hs, hl]
    · simp [hmap]
    · simp only [sideACount, sideBCount, excludedCount, List.countP_cons]
        at hsum ⊢
      cases s <;> simp <;> omega

/-- Claim C1 witness on a concrete one element list. -/
theorem aggregate_partition_witness :
    ∃ l, aggregate [d5] 1000 600 (mkDivider 1000 600 0.05 0.25) = some l ∧
      l.map Prod.fst = [d5] ∧
      sideACount l + sideBCount l + excludedCount l =
        ([d5] : List Detection).length :=
  aggregate_partition [d5] 1000 600 (mkDivider 1000 600 0.05 0.25)
    (by norm_num) (by norm_num)
    (by intro d hd
        rw [List.mem_singleton] at hd
        subst hd
        norm_num [d5])

/-- Claim C3: for a box with y2 > y1 the filter excludes it iff the ignore
zone rule (strict tests against height times 0.60 and width times 0.30) or
the strict aspect rule fires; a box whose width over height is exactly 3 does
not fire the aspect rule, and a center exactly on a zone boundary fails the
strict test on that coordinate. -/
theorem noiseFilter_spec (d : Detection) (w h : ℚ) (dl : DividerLine)
    (hd : d.y1 < d.y2) :
    (classifyDet d w h dl = some SideAssignment.Excluded ↔
      ((centerY d > h * 0.60 ∧ centerX d < w * 0.30) ∨
        boxW d / boxH d > 3.0)) ∧
    (boxW d / boxH d = 3.0 → ¬ boxW d / boxH d > 3.0) ∧
    (centerX d = w * 0.30 → ¬ centerX d < w * 0.30) ∧
    (centerY d = h * 0.60 → ¬ centerY d > h * 0.60) := by
  have hbh : boxH d ≠ 0 := by
    unfold boxH
    exact sub_ne_zero.mpr (ne_of_gt hd)
  refine ⟨?_, ?_, ?_, ?_⟩
  · rw [classifyDet_excluded_iff]
    constructor
    · rintro (hz | ⟨-, ha⟩)
      · exact Or.inl hz
      · exact Or.inr ha
    · rintro (hz | ha)
      · exact Or.inl hz
      · exact Or.inr ⟨hbh, ha⟩
  · intro he
    rw [he]
    exact lt_irrefl _
  · intro he
    rw [he]
    exact lt_irrefl _
  · intro he
    rw [he]
    exact lt_irrefl _

/-- Claim C3 witness at the scenario detection in a 1000 by 600 frame. -/
theorem noiseFilter_spec_witness :
    (classifyDet d5 1000 600 (mkDivider 1000 600 0.05 0.25) =
        some SideAssignment.Excluded ↔
      ((centerY d5 > 600 * 0.60 ∧ centerX d5 < 1000 * 0.30) ∨
        boxW d5 / boxH d5 > 3.0)) ∧
    (boxW d5 / boxH d5 = 3.0 → ¬ boxW d5 / boxH d5 > 3.0) ∧
    (centerX d5 = 1000 * 0.30 → ¬ centerX d5 < 1000 * 0.30) ∧
    (centerY d5 = 600 * 0.60 → ¬ centerY d5 > 600 * 0.60) :=
  noiseFilter_spec d5 1000 600 (mkDivider 1000 600 0.05 0.25)
    (by norm_num [d5])

/-- Claim C4: a surviving detection is compared against divX = topX + slope
times centerY at its own vertical center: SideA exactly when centerX < divX,
SideB otherwise, and exact equality lands on SideB. -/
theorem classifier_spec (d : Detection) (w h : ℚ) (dl : DividerLine)
    (hbh : boxH d ≠ 0)
    (hnn : classifyDet d w h dl ≠ some SideAssignment.Excluded) :
    (classifyDet d w h dl = some SideAssignment.SideA ↔
      centerX d < dl.topX + dl.slope * centerY d) ∧
    (classifyDet d w h dl = some SideAssignment.SideB ↔
      ¬ centerX d < dl.topX + dl.slope * centerY d) ∧
    (centerX d = dl.topX + dl.slope * centerY d →
      classifyDet d w h dl = some SideAssignment.SideB) := by
  have hsides := classifyDet_sides d w h dl hbh hnn
  have hdivX : divX dl (centerY d) = dl.topX + dl.slope * centerY d := rfl
  rw [hdivX] at hsides
  refine ⟨hsides.1, hsides.2, fun he => ?_⟩
  exact hsides.2.mpr (by rw [he]; exact lt_irrefl _)

/-- Claim C4 witness at the scenario detection. -/
theorem classifier_spec_witness :
    (classifyDet d5 1000 600 (mkDivider 1000 600 0.05 0.25) =
        some SideAssignment.SideA ↔
      centerX d5 < (mkDivider 1000 600 0.05 0.25).topX +
        (mkDivider 1000 600 0.05 0.25).slope * centerY d5) ∧
    (classifyDet d5 1000 600 (mkDivider 1000 600 0.05 0.25) =
        some SideAssignment.SideB ↔
      ¬ centerX d5 < (mkDivider 1000 600 0.05 0.25).topX +
        (mkDivider 1000 600 0.05 0.25).slope * centerY d5) ∧
    (centerX d5 = (mkDivider 1000 600 0.05 0.25).topX +
        (mkDivider 1000 600 0.05 0.25).slope * centerY d5 →
      classifyDet d5 1000 600 (mkDivider 1000 600 0.05 0.25) =
        some SideAssignment.SideB) :=
  classifier_spec d5 1000 600 (mkDivider 1000 600 0.05 0.25)
    (by norm_num [boxH, d5])
    (by
      norm_num [classifyDet, centerX, centerY, boxW, boxH, divX, mkDivider, d5]
      decide)

/-- Claim C7 counterexample: a malformed box with y2 = y1 outside the ignore
zone is not skipped as an exclusion; the aspect rule divides by zero, the
loop aborts and count_cars loses the whole cycle (none), instead of the box
being rejected before the filter and treated as an exclusion. -/
theorem malformed_not_skipped :
    count_cars [dDegenerate] 1000 600 0.05 0.25 = none ∧
    aggregate [dDegenerate] 1000 600 (mkDivider 1000 600 0.05 0.25) ≠
      some [(dDegenerate, SideAssignment.Excluded)] := by
  constructor
  · norm_num [count_cars, computeDivider, aggregate, classifyDet, centerX,
      centerY, boxW, boxH, divX, mkDivider, dDegenerate]
  · norm_num [aggregate, classifyDet, centerX, centerY, boxW, boxH, divX,
      mkDivider, dDegenerate]
    simp

/-- Claim C7 amended: the code performs no coordinate validation. A box of
zero height whose center is outside the ignore zone reaches the aspect
division and aborts with a division by zero, modelled as none; every box of
nonzero height, inverted or not, flows through the normal filter and
classifier and receives an assignment. -/
theorem malformed_behavior (d : Detection) (w h : ℚ) (dl : DividerLine) :
    (boxH d = 0 → ¬ (centerY d > h * 0.60 ∧ centerX d < w * 0.30) →
      classifyDet d w h dl = none) ∧
    (boxH d ≠ 0 → (classifyDet d w h dl).isSome = true) := by
  constructor
  · intro h0 hz
    unfold classifyDet
    split_ifs <;> simp_all
  · intro h0
    obtain ⟨s, hs⟩ := classifyDet_isSome d w h dl h0
    rw [hs]
    rfl

/-- Claim C7 amended witness at the degenerate box. -/
theorem malformed_behavior_witness :
    classifyDet dDegenerate 1000 600 (mkDivider 1000 600 0.05 0.25) = none :=
  (malformed_behavior dDegenerate 1000 600 (mkDivider 1000 600 0.05 0.25)).1
    (by norm_num [boxH, dDegenerate])
    (by rintro ⟨hy, -⟩
        norm_num [centerY, dDegenerate] at hy)

/-- Claim C8 counterexample: with height = -5 (and likewise with width =
-100) the geometry silently computes a divider instead of failing fast on a
nonpositive dimension. -/
theorem degenerateFrame_silent :
    (computeDivider 100 (-5) 0 0).isSome = true ∧
    (computeDivider (-100) 600 0 0).isSome = true := by
  constructor <;> norm_num [computeDivider]

/-- Claim C8 amended: there is no dimension validation; the computation fails
(ZeroDivisionError, modelled none) exactly when height = 0, whatever the sign
of width, and for any nonzero height, in particular every height > 0, the
slope division is well defined and a divider is returned. -/
theorem computeDivider_failure_iff (w h s t : ℚ) :
    (computeDivider w h s t = none ↔ h = 0) ∧
    (h ≠ 0 → computeDivider w h s t = some (mkDivider w h s t)) := by
  unfold computeDivider
  split_ifs with h0 <;> simp_all

/-- Claim C8 amended witness at the scenario frame. -/
theorem computeDivider_failure_iff_witness :
    computeDivider 1000 600 0.05 0.25 = some (mkDivider 1000 600 0.05 0.25) :=
  (computeDivider_failure_iff 1000 600 0.05 0.25).2 (by norm_num)

/-- The to_johor tally expressed directly over the input list. -/
def sideATally (dets : List Detection) (w h : ℚ) (dl : DividerLine) : ℕ :=
  dets.countP fun d =>
    decide (classifyDet d w h dl = some SideAssignment.SideA)

/-- Helper: when the loop completes, the SideA counter of its output list is
the count of detections whose loop outcome is SideA. -/
lemma sideACount_aggregate (dets : List Detection) (w h : ℚ)
    (dl : DividerLine) (l : List (Detection × SideAssignment))
    (hl : aggregate dets w h dl = some l) :
    sideACount l = sideATally dets w h dl := by
  induction dets generalizing l with
  | nil =>
    simp only [aggregate, Option.some.injEq] at hl
    subst hl
    rfl
  | cons d ds ih =>
    cases hc : classifyDet d w h dl with
    | none =>
      rw [aggregate, hc] at hl
      simp at hl
    | some s =>
      cases hr : aggregate ds w h dl with
      | none =>
        rw [aggregate, hc, hr] at hl
        simp at hl
      | some rest =>
        rw [aggregate, hc, hr] at hl
        simp only [Option.some_bind, Option.map_some', Option.some.injEq]
          at hl
        subst hl
        have hih := ih rest hr
        simp only [sideACount, sideATally, List.countP_cons] at hih ⊢
        rw [hih, hc]
        cases s <;> simp

/-- Claim C10: with frame and tilt and detections fixed, increasing shift
moves the divider uniformly right: the slope does not depend on shift, divX
grows by width times the shift increase at every y, the excluded set is
unchanged, every SideA detection stays SideA, and the SideA tally of a
successful aggregation is monotone nondecreasing in shift. -/
theorem shift_monotone (dets : List Detection) (w h t s₁ s₂ : ℚ)
    (hw : 0 < w) (hh : 0 < h) (hs : s₁ ≤ s₂) :
    ((mkDivider w h s₁ t).slope = (mkDivider w h s₂ t).slope) ∧
    (∀ y, divX (mkDivider w h s₂ t) y =
      divX (mkDivider w h s₁ t) y + w * (s₂ - s₁)) ∧
    (∀ d, classifyDet d w h (mkDivider w h s₁ t) =
        some SideAssignment.Excluded ↔
      classifyDet d w h (mkDivider w h s₂ t) =
        some SideAssignment.Excluded) ∧
    (∀ d, classifyDet d w h (mkDivider w h s₁ t) =
        some SideAssignment.SideA →
      classifyDet d w h (mkDivider w h s₂ t) =
        some SideAssignment.SideA) ∧
    (∀ l₁ l₂, aggregate dets w h (mkDivider w h s₁ t) = some l₁ →
      aggregate dets w h (mkDivider w h s₂ t) = some l₂ →
      sideACount l₁ ≤ sideACount l₂) := by
  have hdiv : ∀ y, divX (mkDivider w h s₂ t) y =
      divX (mkDivider w h s₁ t) y + w * (s₂ - s₁) := by
    intro y
    show w * 0.60 + w * s₂ + w * t +
        (w * 0.40 + w * s₂ - w * t - (w * 0.60 + w * s₂ + w * t)) / h * y =
      w * 0.60 + w * s₁ + w * t +
        (w * 0.40 + w * s₁ - w * t - (w * 0.60 + w * s₁ + w * t)) / h * y +
        w * (s₂ - s₁)
    ring
  have hmono : ∀ y, divX (mkDivider w h s₁ t) y ≤
      divX (mkDivider w h s₂ t) y := by
    intro y
    have h0 : 0 ≤ w * (s₂ - s₁) := mul_nonneg hw.le (sub_nonneg.mpr hs)
    rw [hdiv y]
    linarith
  have hexch : ∀ d, classifyDet d w h (mkDivider w h s₁ t) =
      some SideAssignment.Excluded ↔
      classifyDet d w h (mkDivider w h s₂ t) =
      some SideAssignment.Excluded := by
    intro d
    rw [classifyDet_excluded_iff, classifyDet_excluded_iff]
  have hA : ∀ d, classifyDet d w h (mkDivider w h s₁ t) =
      some SideAssignment.SideA →
      classifyDet d w h (mkDivider w h s₂ t) =
      some SideAssignment.SideA := by
    intro d hd
    have hexA : classifyDet d w h (mkDivider w h s₁ t) ≠
        some SideAssignment.Excluded := by
      rw [hd]
      simp
    have hbh : boxH d ≠ 0 := by
      intro h0
      unfold classifyDet at hd
      split_ifs at hd <;> simp_all
    have hlt : centerX d < divX (mkDivider w h s₁ t) (centerY d) :=
      ((classifyDet_sides d w h _ hbh hexA).1).mp hd
    have hexB : classifyDet d w h (mkDivider w h s₂ t) ≠
        some SideAssignment.Excluded := fun hc =>
      hexA ((hexch d).mpr hc)
    exact ((classifyDet_sides d w h _ hbh hexB).1).mpr
      (lt_of_lt_of_le hlt (hmono (centerY d)))
  have hslope : (mkDivider w h s₁ t).slope = (mkDivider w h s₂ t).slope := by
    show (w * 0.40 + w * s₁ - w * t - (w * 0.60 + w * s₁ + w * t)) / h =
      (w * 0.40 + w * s₂ - w * t - (w * 0.60 + w * s₂ + w * t)) / h
    congr 1
    ring
  refine ⟨hslope, hdiv, hexch, hA, ?_⟩
  intro l₁ l₂ hl₁ hl₂
  rw [sideACount_aggregate dets w h _ l₁ hl₁,
    sideACount_aggregate dets w h _ l₂ hl₂]
  unfold sideATally
  apply List.countP_mono_left
  intro d _ hdA
  rw [decide_eq_true_eq] at hdA ⊢
  exact hA d hdA

/-- Claim C10 witness: one detection, shifts 0 and 0.05, tilt 0.25, on the
scenario frame. -/
theorem shift_monotone_witness :
    ((mkDivider 1000 600 0 0.25).slope =
      (mkDivider 1000 600 0.05 0.25).slope) ∧
    (∀ y, divX (mkDivider 1000 600 0.05 0.25) y =
      divX (mkDivider 1000 600 0 0.25) y + 1000 * (0.05 - 0)) ∧
    (∀ d, classifyDet d 1000 600 (mkDivider 1000 600 0 0.25) =
        some SideAssignment.Excluded ↔
      classifyDet d 1000 600 (mkDivider 1000 600 0.05 0.25) =
        some SideAssignment.Excluded) ∧
    (∀ d, classifyDet d 1000 600 (mkDivider 1000 600 0 0.25) =
        some SideAssignment.SideA →
      classifyDet d 1000 600 (mkDivider 1000 600 0.05 0.25) =
        some SideAssignment.SideA) ∧
    (∀ l₁ l₂, aggregate [d5] 1000 600 (mkDivider 1000 600 0 0.25) = some l₁ →
      aggregate [d5] 1000 600 (mkDivider 1000 600 0.05 0.25) = some l₂ →
      sideACount l₁ ≤ sideACount l₂) :=
  shift_monotone [d5] 1000 600 0.25 0 0.05 (by norm_num) (by norm_num)
    (by norm_num)

/-- Claim C6 witness at the sample count 24. -/
theorem statusBand_spec_witness : statusBand 24 = Status.CLEAR :=
  statusBand_spec.2.1
